import Mathlib

/-!
Verification of the stacks-builder request-orchestration backend.

Each Go function under scrutiny is shallowly embedded as an executable Lean
definition over explicit state (database tables become lists of rows, the
buffered telemetry channel becomes a bounded list, external processes and
cryptographic hashes become function parameters).  Machine integers are
modelled as `Int`: none of the verified paths can overflow 64-bit ranges.
All definitions come first, followed by the theorems.
-/

/-- Model of Go `unicode.IsSpace` restricted to the ASCII whitespace class,
which is the only whitespace occurring in the inputs this development
considers. -/
def isSpaceChar (c : Char) : Bool :=
  c == ' ' || c == '\t' || c == '\n' || c == '\r' || c == '\x0b' || c == '\x0c'

/-- Model of Go `strings.TrimSpace` on the character list of a string. -/
def trimChars (l : List Char) : List Char :=
  ((l.dropWhile isSpaceChar).reverse.dropWhile isSpaceChar).reverse

/-- Model of Go `strings.TrimSpace`. -/
def trimString (s : String) : String :=
  String.mk (trimChars s.data)

/-- Model of Go `strings.ToLower` (ASCII case mapping; the configuration
values this development considers are ASCII). -/
def lowerString (s : String) : String :=
  String.mk (s.data.map Char.toLower)

namespace Codegen

/-- codegen.ProviderGemini. -/
def ProviderGemini : String := "gemini"

/-- codegen.ProviderOpenAI. -/
def ProviderOpenAI : String := "openai"

/-- codegen.ProviderClaude. -/
def ProviderClaude : String := "claude"

/-- codegen.ProviderFromEnv, openai_service.go lines 302-310.  The single
configuration value `CODEGEN_PROVIDER` is passed in as the argument; the Go
code computes `strings.TrimSpace(strings.ToLower(value))` and switches on the
three known identifiers, defaulting to gemini. -/
def ProviderFromEnv (codegenProviderEnv : String) : String :=
  let provider := trimString (lowerString codegenProviderEnv)
  if provider = ProviderOpenAI then provider
  else if provider = ProviderClaude then provider
  else if provider = ProviderGemini then provider
  else ProviderGemini

/-- codegen.CodeGenerationResponse: generated code, explanation and token
counters, as produced by every provider variant. -/
structure CodeGenerationResponse where
  code : String
  explanation : String
  inputTokens : Int := 0
  outputTokens : Int := 0
deriving Repr, DecidableEq

end Codegen

namespace Auth

/-- auth.User (models.go).  createdAt is a unix timestamp. -/
structure User where
  id : Int
  username : String
  passwordHash : String
  email : Option String
  createdAt : Int
  isActive : Bool
  role : String
deriving Repr, DecidableEq

/-- auth.APIKey (models.go): one stored api_keys row.  Time columns are unix
timestamps; `apiKeyPref` is the displayable api_key_prefix column. -/
structure APIKey where
  id : Int
  userID : Int
  apiKeyHash : String
  apiKeyPref : String
  name : String
  createdAt : Int
  lastUsedAt : Option Int
  expiresAt : Option Int
  isActive : Bool
deriving Repr, DecidableEq

/-- auth.APIKeyListItem (models.go): the non-secret listing projection. -/
structure APIKeyListItem where
  id : Int
  name : String
  pref : String
  createdAt : Int
  lastUsedAt : Option Int
  isActive : Bool
deriving Repr, DecidableEq

/-- auth.AuthenticateUser (service.go lines 104-133).  The users table is the
list `users`; the SQL lookup `WHERE username = ? AND is_active = 1` is the
first matching row (usernames are unique).  bcrypt.CompareHashAndPassword is
abstracted as the parameter `bcryptMatches hash password`.  On success the
password hash is blanked before the user is returned. -/
def AuthenticateUser (users : List User) (bcryptMatches : String → String → Bool)
    (username password : String) : Except String User :=
  match users.find? (fun u => u.username == username && u.isActive) with
  | none => .error ("invalid username or password")
  | some u =>
    if bcryptMatches u.passwordHash password then
      .ok { u with passwordHash := "" }
    else
      .error ("invalid username or password")

/-- Go sql.NullTime comparison `expiresAt.Valid && expiresAt.Time.Before(now)`. -/
def nullTimeBefore (t : Option Int) (now : Int) : Bool :=
  match t with
  | some x => decide (x < now)
  | none => false

/-- auth.ValidateAPIKey (service.go lines 193-225).  The api_keys table is
`db`; sha256 hex hashing of the presented key is abstracted as `hashFn`; the
`QueryRow ... WHERE api_key_hash = ?` lookup is the first row with that hash
(hashes are unique by construction).  The trailing `UPDATE api_keys SET
last_used_at = ?` (whose error is discarded in the source) is returned as the
updated table in the second component. -/
def ValidateAPIKey (db : List APIKey) (hashFn : String → String) (now : Int)
    (apiKey : String) : Except String Int × List APIKey :=
  let keyHash := hashFn apiKey
  match db.find? (fun k => k.apiKeyHash == keyHash) with
  | none => (.error ("invalid API key"), db)
  | some k =>
    if !k.isActive then (.error ("API key has been revoked"), db)
    else if nullTimeBefore k.expiresAt now then (.error ("API key has expired"), db)
    else
      (.ok k.userID,
        db.map (fun r =>
          if r.apiKeyHash == keyHash then { r with lastUsedAt := some now } else r))

/-- Row predicate of the UPDATE in auth.RevokeAPIKey:
`WHERE id = ? AND user_id = ?`. -/
def revokeMatches (userID keyID : Int) (k : APIKey) : Bool :=
  k.id == keyID && k.userID == userID

/-- auth.RevokeAPIKey (service.go lines 280-300).  The UPDATE flips is_active
to 0 on every row matching `id = ? AND user_id = ?`; RowsAffected is the
number of matched rows (SQLite counts every row processed by the UPDATE,
regardless of whether the stored value changed).  When no row matched, the
source reports "API key not found or not owned by user". -/
def RevokeAPIKey (db : List APIKey) (userID keyID : Int) :
    Except String Unit × List APIKey :=
  let db2 := db.map (fun k =>
    if revokeMatches userID keyID k then { k with isActive := false } else k)
  let rowsAffected := db.countP (fun k => revokeMatches userID keyID k)
  if rowsAffected = 0 then (.error ("API key not found or not owned by user"), db2)
  else (.ok (), db2)

/-- Descending creation-time order used by `ORDER BY created_at DESC`. -/
def createdDesc (a b : APIKey) : Prop := b.createdAt ≤ a.createdAt

instance : DecidableRel createdDesc := fun a b => Int.decLe b.createdAt a.createdAt

instance : IsTotal APIKey createdDesc :=
  ⟨fun a b => Int.le_total b.createdAt a.createdAt⟩

instance : IsTrans APIKey createdDesc :=
  ⟨fun _ _ _ h1 h2 => le_trans h2 h1⟩

/-- auth.GetUserAPIKeys (service.go lines 251-277).  The query selects the
rows with `user_id = ? AND is_active = 1`, ordered by created_at descending,
and scans each row into an APIKeyListItem (never exposing the hash). -/
def GetUserAPIKeys (db : List APIKey) (userID : Int) : List APIKeyListItem :=
  ((db.filter (fun k => k.userID == userID && k.isActive)).insertionSort
      createdDesc).map
    (fun k => ⟨k.id, k.name, k.apiKeyPref, k.createdAt, k.lastUsedAt, k.isActive⟩)

end Auth

namespace Middleware

/-- Outcome of the gin APIKeyAuth middleware: either the request is aborted
with an HTTP status and error payload, or it proceeds with user_id and
api_key_id stored in the request context. -/
inductive AuthOutcome where
  | reject (status : Int) (errMsg : String)
  | accept (userID : Int) (apiKeyID : Int)
deriving Repr, DecidableEq

/-- middleware.APIKeyAuth (auth.go lines 70-119).  The x-api-key header value
is `headerKey`; sha256 hex hashing is the parameter `hashFn`; the api_keys
table is `db` and the `QueryRow ... WHERE api_key_hash = ?` lookup is the
first row with that hash.  The source reads id, user_id and expires_at, then
checks ONLY expiry before updating last_used_at (by id) and accepting: note
that is_active is never read on this path.  The updated table is the second
component. -/
def APIKeyAuth (db : List Auth.APIKey) (hashFn : String → String) (now : Int)
    (headerKey : String) : AuthOutcome × List Auth.APIKey :=
  if headerKey = "" then (.reject 401 ("API key required"), db)
  else
    let keyHash := hashFn headerKey
    match db.find? (fun k => k.apiKeyHash == keyHash) with
    | none => (.reject 401 ("Invalid API key"), db)
    | some k =>
      if Auth.nullTimeBefore k.expiresAt now then
        (.reject 401 ("API key expired"), db)
      else
        (.accept k.userID k.id,
          db.map (fun r => if r.id == k.id then { r with lastUsedAt := some now } else r))

end Middleware

namespace Querylog

/-- querylog.QueryLog (model.go).  The query and response bodies are byte
strings (Go strings are byte sequences and the middleware truncates by byte
length).  Field defaults are the Go zero values. -/
structure QueryLog where
  id : Int := 0
  userID : Int := 0
  apiKeyID : Option Int := none
  endpoint : String := ""
  query : List UInt8 := []
  response : List UInt8 := []
  modelProvider : String := ""
  ragContextsCount : Int := 0
  inputTokens : Int := 0
  outputTokens : Int := 0
  latencyMs : Int := 0
  status : String := ""
  errorMessage : String := ""
  conversationID : Option Int := none
  createdAt : Int := 0
deriving Repr, DecidableEq

/-- Capacity of the buffered channel created by querylog.NewService
(service.go line 15): `make(chan *QueryLog, 1000)`. -/
def logChanCapacity : Nat := 1000

/-- The channel backing a fresh querylog.Service is empty. -/
def newServiceChan : List QueryLog := []

/-- querylog.Service.LogAsync (service.go lines 22-28).  The buffered channel
is the list `logChan` (oldest entry first).  The Go `select` with a `default`
branch enqueues when the buffer has room and otherwise returns immediately,
dropping the entry. -/
def LogAsync (logChan : List QueryLog) (entry : QueryLog) : List QueryLog :=
  if logChan.length < logChanCapacity then logChan ++ [entry] else logChan

end Querylog

namespace Rag

/-- rag.RAGRequest: the single JSON object written to the python subprocess. -/
structure RAGRequest where
  query : String
  nResults : Int
  docsResults : Int
deriving Repr, DecidableEq

/-- rag.RAGResponse: the single JSON object read back.  The float64 distance
scores are carried as rationals; no arithmetic is performed on them. -/
structure RAGResponse where
  codeContexts : List String
  codeDistances : List Rat
  docsContexts : List String
  docsDistances : List Rat
  formattedContext : String := ""
  warning : String := ""
  error : String := ""
deriving Repr, DecidableEq

/-- Outcome of one run of the external python process, as the source
distinguishes them: a failed run (spawn failure or non-zero exit, with the
captured stderr), stdout that does not parse as a RAGResponse, or a parsed
RAGResponse. -/
inductive ExecOutcome where
  | runFailure (errMsg : String) (stderr : String)
  | parseFailure (stdout : String)
  | parsed (resp : RAGResponse)
deriving Repr, DecidableEq

/-- Error handling of PythonClient.Retrieve after the subprocess has run
(python_client.go lines 94-116): non-zero exit reports the captured stderr
when there is one, unparsable stdout is an error, and an `error` field inside
a well-formed response is a logical failure, not a partial success. -/
def handleScriptOutcome : ExecOutcome → Except String RAGResponse
  | .runFailure errMsg stderr =>
    if stderr ≠ "" then
      .error ("python script error: " ++ errMsg ++ " (stderr: " ++ stderr ++ ")")
    else
      .error ("failed to execute python script: " ++ errMsg)
  | .parseFailure stdout =>
    .error ("failed to parse python response (output: " ++ stdout ++ ")")
  | .parsed resp =>
    if resp.error ≠ "" then
      .error ("python script returned error: " ++ resp.error)
    else
      .ok resp

/-- rag.PythonClient.Retrieve (python_client.go lines 53-117).  The external
process is abstracted as `runScript`.  An empty query is rejected; then the
source clamps `nResults` with `if nResults < 1 || nResults > 10 then
nResults = 10`, builds the RAGRequest with docs_results equal to n_results,
runs the subprocess and post-processes the outcome. -/
def Retrieve (runScript : RAGRequest → ExecOutcome)
    (query : String) (nResults : Int) : Except String RAGResponse :=
  if query = "" then .error ("query cannot be empty")
  else
    let n := if nResults < 1 ∨ nResults > 10 then 10 else nResults
    handleScriptOutcome (runScript ⟨query, n, n⟩)

/-- rag.Service.RetrieveContext (models the service entrypoint, lines
106-116 of the rag service file): `nResults = 0` is replaced by the default 5
before the 1-20 range check; out-of-range values fail with the validation
error and the bridge is never called; in-range values are handed to the
bridge `pythonClient.Retrieve`, abstracted as `bridgeRetrieve`. -/
def RetrieveContext (bridgeRetrieve : String → Int → Except String RAGResponse)
    (query : String) (nResults : Int) : Except String RAGResponse :=
  let n := if nResults = 0 then 5 else nResults
  if n < 1 ∨ n > 20 then .error ("n_results must be between 1 and 20")
  else bridgeRetrieve query n

end Rag

/-- conversation.Turn (conversation.go): one role-tagged message. -/
structure Turn where
  role : String
  content : String
deriving Repr, DecidableEq

/-- conversation.Conversation (conversation.go).  Time columns are unix
timestamps; defaults are the Go zero values as produced by conversation.New. -/
structure Conversation where
  id : Int := 0
  userID : Int := 0
  history : List Turn := []
  newMessage : String := ""
  createdAt : Int := 0
  updatedAt : Int := 0
deriving Repr, DecidableEq

/-- conversation.Conversation.AddTurn (conversation.go lines 36-41): appends
a turn to the history. -/
def Conversation.AddTurn (c : Conversation) (role content : String) : Conversation :=
  { c with history := c.history ++ [⟨role, content⟩] }

/-- Lowercase hex digit, as emitted by the encoding/json \u escapes. -/
def hexDigitChar (n : Nat) : Char :=
  match n with
  | 0 => '0' | 1 => '1' | 2 => '2' | 3 => '3'
  | 4 => '4' | 5 => '5' | 6 => '6' | 7 => '7'
  | 8 => '8' | 9 => '9' | 10 => 'a' | 11 => 'b'
  | 12 => 'c' | 13 => 'd' | 14 => 'e' | _ => 'f'

/-- Hex digit value, accepting both cases as the JSON \uXXXX unescaper does. -/
def hexVal (c : Char) : Option Nat :=
  if '0' ≤ c ∧ c ≤ '9' then some (c.toNat - '0'.toNat)
  else if 'a' ≤ c ∧ c ≤ 'f' then some (c.toNat - 'a'.toNat + 10)
  else if 'A' ≤ c ∧ c ≤ 'F' then some (c.toNat - 'A'.toNat + 10)
  else none

/-- String escaping of encoding/json (with its default HTML escaping): quote,
backslash, the three short escapes, \u00xx for the remaining control bytes
and for the HTML characters (angle brackets and ampersand), the two-char
escapes u2028 and u2029 for the unicode line separators; every other rune is
verbatim. -/
def escapeJSONChar (c : Char) : List Char :=
  if c = '"' then ['\\', '"']
  else if c = '\\' then ['\\', '\\']
  else if c = '\n' then ['\\', 'n']
  else if c = '\r' then ['\\', 'r']
  else if c = '\t' then ['\\', 't']
  else if c.toNat < 32 ∨ c = '<' ∨ c = '>' ∨ c = '&' then
    ['\\', 'u', '0', '0', hexDigitChar (c.toNat / 16), hexDigitChar (c.toNat % 16)]
  else if c.toNat = 8232 ∨ c.toNat = 8233 then
    ['\\', 'u', '2', '0', '2', hexDigitChar (c.toNat % 16)]
  else [c]

/-- escapeJSONChar over a whole string body. -/
def escapeJSONList : List Char → List Char
  | [] => []
  | c :: cs => escapeJSONChar c ++ escapeJSONList cs

/-- The single-character JSON escapes accepted after a backslash. -/
def unescapeSimple (c : Char) : Option Char :=
  if c = '"' then some '"'
  else if c = '\\' then some '\\'
  else if c = '/' then some '/'
  else if c = 'b' then some '\x08'
  else if c = 'f' then some '\x0c'
  else if c = 'n' then some '\n'
  else if c = 'r' then some '\r'
  else if c = 't' then some '\t'
  else none

/-- JSON string-body parser (the decoder side of encoding/json on string
literals): reads characters up to the closing quote, resolving backslash
escapes and \uXXXX sequences, and rejecting raw control bytes, as the Go
decoder does.  Returns the decoded body and the input after the quote. -/
def parseJSONStringBody : List Char → Option (List Char × List Char)
  | [] => none
  | c :: rest =>
    if c = '"' then some ([], rest)
    else if c = '\\' then
      match rest with
      | [] => none
      | e :: r =>
        if e = 'u' then
          match r with
          | h1 :: h2 :: h3 :: h4 :: r2 =>
            match hexVal h1, hexVal h2, hexVal h3, hexVal h4 with
            | some a, some b, some v3, some d =>
              (parseJSONStringBody r2).map
                (fun p => (Char.ofNat (((a * 16 + b) * 16 + v3) * 16 + d) :: p.1, p.2))
            | _, _, _, _ => none
          | _ => none
        else
          match unescapeSimple e with
          | some c2 => (parseJSONStringBody r).map (fun p => (c2 :: p.1, p.2))
          | none => none
    else if c.toNat < 32 then none
    else (parseJSONStringBody rest).map (fun p => (c :: p.1, p.2))

/-- Expect a fixed token at the head of the input and return the rest. -/
def expectChars : List Char → List Char → Option (List Char)
  | [], l => some l
  | _ :: _, [] => none
  | p :: ps, c :: cs => if c = p then expectChars ps cs else none

/-- The opening token of a marshalled Turn up to the first quote of the role
string value. -/
def turnOpenChars : List Char :=
  ['\x7b', '"', 'r', 'o', 'l', 'e', '"', ':', '"']

/-- The token between the role value and the content string value. -/
def turnMidChars : List Char :=
  [',', '"', 'c', 'o', 'n', 't', 'e', 'n', 't', '"', ':', '"']

/-- The characters json.Marshal emits for one Turn: field order follows the
struct (role, then content), with no whitespace. -/
def serializeTurnChars (t : Turn) : List Char :=
  turnOpenChars ++ escapeJSONList t.role.data ++ '"' :: turnMidChars
    ++ escapeJSONList t.content.data ++ ['"', '\x7d']

/-- The comma-separated tail of a marshalled history after its first Turn. -/
def historyTailChars : List Turn → List Char
  | [] => []
  | t :: ts => ',' :: serializeTurnChars t ++ historyTailChars ts

/-- The characters between the brackets of a marshalled history. -/
def serializeHistoryChars : List Turn → List Char
  | [] => []
  | t :: ts => serializeTurnChars t ++ historyTailChars ts

/-- Model of `json.Marshal(c.History)` as called by
conversation.Conversation.SerializeHistory (conversation.go lines 44-50):
a bracketed, comma-separated sequence of Turn objects with no whitespace.
Marshal never fails on this shape, so the error branch of the Go method is
unreachable and the method returns this string. -/
def SerializeHistory (history : List Turn) : String :=
  String.mk ('[' :: serializeHistoryChars history ++ [']'])

/-- conversation.Conversation.SerializeHistory: marshal the history field. -/
def Conversation.SerializeHistoryM (c : Conversation) : Except String String :=
  .ok (SerializeHistory c.history)

/-- Parser for one marshalled Turn object: the canonical member order
json.Marshal emits (role, then content), with JSON string unescaping.
Returns the Turn and the remaining input. -/
def parseTurnObject (l : List Char) : Option (Turn × List Char) :=
  match expectChars turnOpenChars l with
  | none => none
  | some l1 =>
    match parseJSONStringBody l1 with
    | none => none
    | some (role, l2) =>
      match expectChars turnMidChars l2 with
      | none => none
      | some l3 =>
        match parseJSONStringBody l3 with
        | none => none
        | some (content, l4) =>
          match l4 with
          | [] => none
          | c :: l5 =>
            if c = '\x7d' then some (⟨String.mk role, String.mk content⟩, l5)
            else none

/-- Loop over the remaining array elements: a closing bracket ends the array,
a comma is followed by the next Turn object.  The fuel argument only bounds
the recursion; callers pass one more than the input length, which a parser
that consumes at least one character per element can never exhaust. -/
def parseTurnsTail (fuel : Nat) (l : List Char) : Option (List Turn × List Char) :=
  match fuel with
  | 0 => none
  | fuel + 1 =>
    match l with
    | [] => none
    | c :: rest =>
      if c = ']' then some ([], rest)
      else if c = ',' then
        match parseTurnObject rest with
        | none => none
        | some (t, l2) =>
          match parseTurnsTail fuel l2 with
          | none => none
          | some (ts, l3) => some (t :: ts, l3)
      else none

/-- Parser for the whole marshalled history document: a JSON array of Turn
objects. -/
def parseHistoryDoc (l : List Char) : Option (List Turn × List Char) :=
  match l with
  | [] => none
  | c :: rest =>
    if c = '[' then
      match rest with
      | [] => none
      | c2 :: rest2 =>
        if c2 = ']' then some ([], rest2)
        else
          match parseTurnObject (c2 :: rest2) with
          | none => none
          | some (t, l2) =>
            match parseTurnsTail (l2.length + 1) l2 with
            | none => none
            | some (ts, l3) => some (t :: ts, l3)
    else none

/-- conversation.DeserializeHistory (conversation.go lines 53-62): an empty
or all-whitespace input yields the empty history with no error; otherwise the
input is given to the model of json.Unmarshal into []Turn — surrounding
whitespace is ignored, the JSON literal null yields the empty (nil) slice,
a well-formed array of Turn objects is decoded whole, and anything else
(including trailing data after the array) is an unmarshal error. -/
def DeserializeHistory (history : String) : Except String (List Turn) :=
  if trimChars history.data = [] then .ok []
  else if trimChars history.data = ['n', 'u', 'l', 'l'] then .ok []
  else
    match parseHistoryDoc (trimChars history.data) with
    | some (ts, []) => .ok ts
    | _ => .error ("unmarshal history: invalid JSON")

namespace Handlers

/-- Composition of the final assistant-visible message in
handlers.ChatCompletions (chat.go lines 167-171): the explanation alone, or
the explanation followed by a fenced clarity code block when code was
produced. -/
def composeAssistantMessage (resp : Codegen.CodeGenerationResponse) : String :=
  if resp.code ≠ "" then
    resp.explanation ++ "\n\n" ++ "```clarity\n" ++ resp.code ++ "\n```"
  else
    resp.explanation

/-- The conversation update of the ChatCompletions success path (chat.go
lines 173-174): the original user query, then the composed assistant message,
are appended in that order. -/
def chatCompletionsSuccessTurns (convo : Conversation) (query : String)
    (resp : Codegen.CodeGenerationResponse) : Conversation :=
  (convo.AddTurn "user" query).AddTurn "assistant" (composeAssistantMessage resp)

end Handlers

namespace Middleware

/-- middleware.isTrackedEndpoint (query-log middleware file, lines 128-135). -/
def isTrackedEndpoint (path : String) (tracked : List String) : Bool :=
  tracked.any (fun e => e == path)

/-- ASCII whitespace on bytes, for `strings.TrimSpace` over a Go byte string. -/
def isSpaceByte (b : UInt8) : Bool :=
  b == 32 || b == 9 || b == 10 || b == 13 || b == 11 || b == 12

/-- Model of `strings.TrimSpace` on a Go byte string. -/
def trimBytes (l : List UInt8) : List UInt8 :=
  ((l.dropWhile isSpaceByte).reverse.dropWhile isSpaceByte).reverse

/-- middleware.extractQuery (query-log middleware file, lines 137-139). -/
def extractQuery (body : List UInt8) : List UInt8 :=
  trimBytes body

/-- middleware.truncateResponse (query-log middleware file, lines 141-149).
Go `len` and slicing act on bytes, so the response body is a byte string. -/
def truncateResponse (val : List UInt8) (maxLen : Int) : List UInt8 :=
  if maxLen ≤ 0 then []
  else if (val.length : Int) ≤ maxLen then val
  else val.take maxLen.toNat

/-- middleware.getStatus (query-log middleware file, lines 151-156). -/
def getStatus (code : Int) : String :=
  if 200 ≤ code ∧ code < 400 then "success" else "error"

/-- The per-request data QueryLogMiddleware reads after the handler chain has
run: path, captured bodies, status, timing, and the values stored in the gin
context.  An Option field models `c.Get` followed by the toInt64/toInt type
switch: `none` stands for an absent key or a value of an unconvertible
dynamic type, in which case the Go code leaves the zero value in place. -/
structure MWRequest where
  fullPath : String
  urlPath : String
  requestBody : List UInt8
  responseBody : List UInt8
  statusCode : Int
  latencyMs : Int
  nowUTC : Int
  userIDVal : Option Int
  apiKeyIDVal : Option Int
  providerVal : Option String
  inputTokensVal : Option Int
  outputTokensVal : Option Int
  ragContextsCountVal : Option Int
  conversationIDVal : Option Int
  errorMessageVal : Option String
deriving Repr, DecidableEq

/-- The path variable of QueryLogMiddleware: `c.FullPath()`, falling back to
`c.Request.URL.Path` when empty. -/
def resolvePath (c : MWRequest) : String :=
  if c.fullPath = "" then c.urlPath else c.fullPath

/-- The logEntry value QueryLogMiddleware assembles (lines 66-116): the
captured request/response (the response truncated to 10000 bytes), timing and
status, and each gin-context value when present and convertible, the Go zero
value otherwise. -/
def buildLogEntry (c : MWRequest) : Querylog.QueryLog :=
  { endpoint := resolvePath c
    query := extractQuery c.requestBody
    response := truncateResponse c.responseBody 10000
    latencyMs := c.latencyMs
    status := getStatus c.statusCode
    createdAt := c.nowUTC
    userID := c.userIDVal.getD 0
    apiKeyID := c.apiKeyIDVal
    modelProvider := c.providerVal.getD ""
    inputTokens := c.inputTokensVal.getD 0
    outputTokens := c.outputTokensVal.getD 0
    ragContextsCount := c.ragContextsCountVal.getD 0
    conversationID := c.conversationIDVal
    errorMessage := c.errorMessageVal.getD "" }

/-- middleware.QueryLogMiddleware (query-log middleware file, lines 42-126):
untracked endpoints are passed through; otherwise the entry is built from the
captured request/response (the response truncated to 10000 bytes), the
entry is skipped with a local diagnostic when the resolved user id is 0, and
otherwise handed to Service.LogAsync.  The result is `none` when nothing is
enqueued and `some entry` for the entry handed to LogAsync. -/
def QueryLogMiddleware (tracked : List String) (c : MWRequest) :
    Option Querylog.QueryLog :=
  if !isTrackedEndpoint (resolvePath c) tracked then none
  else if (buildLogEntry c).userID = 0 then none
  else some (buildLogEntry c)

end Middleware

/-- A stored api_keys row that has been revoked (is_active = 0), is not
expired, and whose hash is the hash of the presented key under the model
hash function `fun s => s`. -/
def revokedKeyRow : Auth.APIKey :=
  ⟨1, 7, "mk_secret", "mk_secre", "ci key", 0, none, none, false⟩

/-- A stored api_keys row that is active, owned by user 7. -/
def activeKeyRow : Auth.APIKey :=
  ⟨1, 7, "h1", "mk_h1", "k", 5, none, none, true⟩

/-- A request through the tracked chat endpoint with a resolved user id. -/
def sampleMWRequest : Middleware.MWRequest :=
  ⟨"/v1/chat/completions", "/v1/chat/completions", [113], [114, 114], 200, 12, 99,
    some 7, some 1, some ("gemini"), some 3, some 4, some 5, some 9, none⟩

/-- The query-log entry the middleware builds for `sampleMWRequest`. -/
def sampleMWEntry : Querylog.QueryLog :=
  { endpoint := "/v1/chat/completions"
    query := [113]
    response := [114, 114]
    latencyMs := 12
    status := "success"
    createdAt := 99
    userID := 7
    apiKeyID := some 1
    modelProvider := "gemini"
    inputTokens := 3
    outputTokens := 4
    ragContextsCount := 5
    conversationID := some 9
    errorMessage := "" }

/-! ## Theorems -/

/-- C8: Provider selection is a pure function of the single CODEGEN_PROVIDER
configuration value: after lowercasing and trimming whitespace, ProviderFromEnv
returns the configured identifier when it is one of "openai", "claude",
"gemini", and returns the default "gemini" for every other value, including
the empty string. -/
theorem providerFromEnv_known_or_default (env : String) :
    (trimString (lowerString env) = "openai" ∨
        trimString (lowerString env) = "claude" ∨
        trimString (lowerString env) = "gemini" →
      Codegen.ProviderFromEnv env = trimString (lowerString env))
    ∧ (trimString (lowerString env) ≠ "openai" →
        trimString (lowerString env) ≠ "claude" →
        trimString (lowerString env) ≠ "gemini" →
      Codegen.ProviderFromEnv env = "gemini")
    ∧ Codegen.ProviderFromEnv "" = "gemini" := by
  unfold Codegen.ProviderFromEnv Codegen.ProviderOpenAI Codegen.ProviderClaude
    Codegen.ProviderGemini
  refine ⟨?_, ?_, by decide⟩
  · rintro (h | h | h) <;> simp [h]
  · intro h1 h2 h3
    simp [h1, h2, h3]

/-- Witness for C8 at the concrete configured value " OpenAI ". -/
theorem providerFromEnv_known_or_default_witness :
    Codegen.ProviderFromEnv " OpenAI " = trimString (lowerString (" OpenAI ")) :=
  (providerFromEnv_known_or_default (" OpenAI ")).1 (Or.inl (by decide))

/-- C5: for every username/password pair (over any users table and any bcrypt
comparison), authentication failure returns the one error message
"invalid username or password", identical in the unknown-user, inactive-user
and mismatched-password cases, so the caller cannot tell which occurred. -/
theorem authenticateUser_uniform_failure (users : List Auth.User)
    (bcryptMatches : String → String → Bool) (username password e : String) :
    Auth.AuthenticateUser users bcryptMatches username password = .error e →
    e = "invalid username or password" := by
  unfold Auth.AuthenticateUser
  cases h : users.find? (fun u => u.username == username && u.isActive) with
  | none => intro he; cases he; rfl
  | some u =>
    by_cases hb : bcryptMatches u.passwordHash password
    · simp [hb]
    · intro he
      simp [hb] at he
      exact he.symm

/-- Witness for C5: the unknown-user, inactive-user and wrong-password cases
on a concrete one-row table all fail with the single message. -/
theorem authenticateUser_uniform_failure_witness :
    Auth.AuthenticateUser [⟨1, "alice", "h", none, 0, true, "user"⟩]
        (fun hash pw => hash == pw) "bob" "h" = .error ("invalid username or password")
    ∧ ("invalid username or password" : String) = "invalid username or password" :=
  ⟨by rfl,
    authenticateUser_uniform_failure [⟨1, "alice", "h", none, 0, true, "user"⟩]
      (fun hash pw => hash == pw) "bob" "h" "invalid username or password"
      (by rfl)⟩

/-- C6: LogAsync is a total function of the queue state (returning to the
caller in every case): when the bounded queue (capacity 1000) is full the
entry is dropped and the queue is unchanged, and when the queue is below
capacity the entry is enqueued at the back. -/
theorem logAsync_drop_or_enqueue (logChan : List Querylog.QueryLog)
    (entry : Querylog.QueryLog) :
    (logChan.length ≥ Querylog.logChanCapacity →
      Querylog.LogAsync logChan entry = logChan)
    ∧ (logChan.length < Querylog.logChanCapacity →
      Querylog.LogAsync logChan entry = logChan ++ [entry]) := by
  constructor
  · intro h
    unfold Querylog.LogAsync
    rw [if_neg (by omega)]
  · intro h
    unfold Querylog.LogAsync
    rw [if_pos h]

/-- Witness for C6: a queue filled to capacity 1000 drops the new entry and
is left unchanged. -/
theorem logAsync_drop_or_enqueue_witness :
    (List.replicate 1000 ({} : Querylog.QueryLog)).length ≥ Querylog.logChanCapacity
    ∧ Querylog.LogAsync (List.replicate 1000 ({} : Querylog.QueryLog)) {}
        = List.replicate 1000 ({} : Querylog.QueryLog) :=
  ⟨by rw [List.length_replicate]; exact Nat.le_refl 1000,
    (logAsync_drop_or_enqueue (List.replicate 1000 ({} : Querylog.QueryLog)) {}).1
      (by rw [List.length_replicate]; exact Nat.le_refl 1000)⟩

/-- C1: at the service entrypoint RetrieveContext, n_results = 0 is replaced
by the default 5 before the range check; every n_results outside 1-20 fails
with the validation error without invoking the bridge (the result does not
depend on the bridge at all); and every n_results in 1-20 passes validation
and is handed to the bridge Retrieve, which is where the clamping of
n_results happens before the subprocess is invoked. -/
theorem retrieveContext_nResults_boundary (runScript : Rag.RAGRequest → Rag.ExecOutcome)
    (q : String) (n : Int) (hq : q ≠ "") :
    (Rag.RetrieveContext (Rag.Retrieve runScript) q 0 = Rag.Retrieve runScript q 5)
    ∧ (n ≠ 0 → n < 1 ∨ n > 20 →
        ∀ bridgeRetrieve : String → Int → Except String Rag.RAGResponse,
          Rag.RetrieveContext bridgeRetrieve q n
            = .error ("n_results must be between 1 and 20"))
    ∧ (1 ≤ n → n ≤ 20 →
        Rag.RetrieveContext (Rag.Retrieve runScript) q n
          = Rag.handleScriptOutcome (runScript
              ⟨q, if n < 1 ∨ n > 10 then 10 else n,
                if n < 1 ∨ n > 10 then 10 else n⟩)) := by
  refine ⟨?_, ?_, ?_⟩
  · simp only [Rag.RetrieveContext]
    norm_num
  · intro hn0 hrange bridgeRetrieve
    simp only [Rag.RetrieveContext]
    rw [if_neg hn0, if_pos hrange]
  · intro h1 h2
    simp only [Rag.RetrieveContext]
    rw [if_neg (show ¬ n = 0 by omega), if_neg (show ¬ (n < 1 ∨ n > 20) by omega)]
    simp only [Rag.Retrieve]
    rw [if_neg hq]

/-- Witness for C1 at the boundary value n = 20 with a one-shot bridge. -/
theorem retrieveContext_nResults_boundary_witness :
    ("q" : String) ≠ ""
    ∧ Rag.RetrieveContext
        (Rag.Retrieve (fun _ => Rag.ExecOutcome.parsed ⟨[], [], [], [], "", "", ""⟩))
        "q" 20
      = Rag.handleScriptOutcome
          ((fun _ => Rag.ExecOutcome.parsed ⟨[], [], [], [], "", "", ""⟩)
            (⟨"q", if (20 : Int) < 1 ∨ (20 : Int) > 10 then 10 else 20,
              if (20 : Int) < 1 ∨ (20 : Int) > 10 then 10 else 20⟩ : Rag.RAGRequest)) :=
  ⟨by decide,
    (retrieveContext_nResults_boundary
        (fun _ => Rag.ExecOutcome.parsed ⟨[], [], [], [], "", "", ""⟩) "q" 20
        (by decide)).2.2 (by norm_num) (by norm_num)⟩

/-- C2 (code bug): with a revoked, non-expired key stored, auth.ValidateAPIKey
rejects the presented key with the revocation error, but the x-api-key
middleware APIKeyAuth — the path actually mounted in front of the rag and
chat routes, which never reads is_active — authenticates the same presented
key and resolves user 7 with key id 1. -/
theorem apiKeyAuth_accepts_revoked_key :
    (Auth.ValidateAPIKey [revokedKeyRow] (fun s => s) 0 "mk_secret").1
        = .error ("API key has been revoked")
    ∧ (Middleware.APIKeyAuth [revokedKeyRow] (fun s => s) 0 "mk_secret").1
        = .accept 7 1 :=
  ⟨rfl, rfl⟩

/-- Applying a predicate-preserving map does not change countP. -/
theorem countP_map_eq_countP {α : Type} (p : α → Bool) (f : α → α)
    (hp : ∀ x, p (f x) = p x) (l : List α) : (l.map f).countP p = l.countP p := by
  induction l with
  | nil => rfl
  | cons a t ih => simp [List.countP_cons, hp, ih]

/-- Mapping an idempotent function twice equals mapping it once. -/
theorem map_self_idem {α : Type} (f : α → α) (hf : ∀ x, f (f x) = f x) (l : List α) :
    (l.map f).map f = l.map f := by
  induction l with
  | nil => rfl
  | cons a t ih => simp only [List.map_cons, hf, ih]

/-- The revocation UPDATE leaves the WHERE-clause fields untouched. -/
theorem revokeUpdate_matches (userID keyID : Int) (x : Auth.APIKey) :
    Auth.revokeMatches userID keyID
        (if Auth.revokeMatches userID keyID x then { x with isActive := false } else x)
      = Auth.revokeMatches userID keyID x := by
  by_cases h : Auth.revokeMatches userID keyID x
  · rw [if_pos h]
    rfl
  · rw [if_neg h]

/-- The per-row revocation UPDATE is idempotent. -/
theorem revokeUpdate_idem (userID keyID : Int) (x : Auth.APIKey) :
    (if Auth.revokeMatches userID keyID
          (if Auth.revokeMatches userID keyID x then { x with isActive := false } else x) then
        { (if Auth.revokeMatches userID keyID x then { x with isActive := false } else x) with
            isActive := false }
      else if Auth.revokeMatches userID keyID x then { x with isActive := false } else x)
    = if Auth.revokeMatches userID keyID x then { x with isActive := false } else x := by
  rw [revokeUpdate_matches]
  by_cases h : Auth.revokeMatches userID keyID x <;> simp [h]

/-- C9: revocation is idempotent: a second RevokeAPIKey on the same
(userId, keyId) after a first successful revocation still succeeds with the
same .ok outcome and leaves the stored table exactly as the first revocation
left it. -/
theorem revokeAPIKey_idempotent (db : List Auth.APIKey) (userID keyID : Int)
    (db2 : List Auth.APIKey)
    (h : Auth.RevokeAPIKey db userID keyID = (.ok (), db2)) :
    Auth.RevokeAPIKey db2 userID keyID = (.ok (), db2) := by
  unfold Auth.RevokeAPIKey at h ⊢
  by_cases h0 : db.countP (fun k => Auth.revokeMatches userID keyID k) = 0
  · rw [if_pos h0] at h
    simp at h
  · rw [if_neg h0] at h
    simp only [Prod.mk.injEq] at h
    obtain ⟨-, hdb⟩ := h
    subst hdb
    have hcount :
        ((db.map (fun k => if Auth.revokeMatches userID keyID k then
            { k with isActive := false } else k)).countP
          (fun k => Auth.revokeMatches userID keyID k))
        = db.countP (fun k => Auth.revokeMatches userID keyID k) :=
      countP_map_eq_countP _ _ (fun x => revokeUpdate_matches userID keyID x) db
    rw [if_neg (by rw [hcount]; exact h0)]
    rw [map_self_idem _ (fun x => revokeUpdate_idem userID keyID x) db]

/-- Witness for C9: revoking the sole key of user 7 yields the revoked table,
and the theorem applied there re-revokes with the same outcome. -/
theorem revokeAPIKey_idempotent_witness :
    Auth.RevokeAPIKey [⟨1, 7, "h1", "mk_h1", "k", 5, none, none, false⟩] 7 1
      = (.ok (), [⟨1, 7, "h1", "mk_h1", "k", 5, none, none, false⟩]) :=
  revokeAPIKey_idempotent [activeKeyRow] 7 1
    [⟨1, 7, "h1", "mk_h1", "k", 5, none, none, false⟩] (by rfl)

/-- C10: GetUserAPIKeys returns only keys whose active flag is set, in
descending creation-time order, so a key revoked via RevokeAPIKey never
appears in any subsequent listing for its owner. -/
theorem getUserAPIKeys_active_sorted (db : List Auth.APIKey) (userID : Int) :
    (∀ item ∈ Auth.GetUserAPIKeys db userID, item.isActive = true)
    ∧ List.Pairwise (fun a b => b.createdAt ≤ a.createdAt)
        (Auth.GetUserAPIKeys db userID)
    ∧ (∀ keyID db2, Auth.RevokeAPIKey db userID keyID = (.ok (), db2) →
        ∀ item ∈ Auth.GetUserAPIKeys db2 userID, item.id ≠ keyID) := by
  refine ⟨?_, ?_, ?_⟩
  · intro item hmem
    unfold Auth.GetUserAPIKeys at hmem
    obtain ⟨k, hk, rfl⟩ := List.mem_map.mp hmem
    have hk2 : k ∈ db.filter (fun k => k.userID == userID && k.isActive) :=
      (List.perm_insertionSort Auth.createdDesc _).mem_iff.mp hk
    have hpred := (List.mem_filter.mp hk2).2
    simp only [Bool.and_eq_true, beq_iff_eq] at hpred
    exact hpred.2
  · unfold Auth.GetUserAPIKeys
    rw [List.pairwise_map]
    exact (List.sorted_insertionSort Auth.createdDesc _).imp (fun h => h)
  · intro keyID db2 hrev item hmem
    unfold Auth.RevokeAPIKey at hrev
    by_cases h0 : db.countP (fun k => Auth.revokeMatches userID keyID k) = 0
    · rw [if_pos h0] at hrev
      simp at hrev
    · rw [if_neg h0] at hrev
      simp only [Prod.mk.injEq] at hrev
      obtain ⟨-, hdb⟩ := hrev
      subst hdb
      unfold Auth.GetUserAPIKeys at hmem
      obtain ⟨k, hk, rfl⟩ := List.mem_map.mp hmem
      have hk2 := (List.perm_insertionSort Auth.createdDesc _).mem_iff.mp hk
      obtain ⟨hkin, hkpred⟩ := List.mem_filter.mp hk2
      simp only [Bool.and_eq_true, beq_iff_eq] at hkpred
      obtain ⟨k0, hk0in, hk0eq⟩ := List.mem_map.mp hkin
      intro hid
      by_cases hm : Auth.revokeMatches userID keyID k0
      · rw [if_pos hm] at hk0eq
        rw [← hk0eq] at hkpred
        simp at hkpred
      · rw [if_neg hm] at hk0eq
        subst hk0eq
        unfold Auth.revokeMatches at hm
        simp only [Bool.and_eq_true, beq_iff_eq, not_and] at hm
        exact hm hid hkpred.1

/-- Witness for C10: the sole active key of user 7 is listed as active. -/
theorem getUserAPIKeys_active_sorted_witness :
    (⟨1, "k", "mk_h1", 5, none, true⟩ : Auth.APIKeyListItem).isActive = true :=
  (getUserAPIKeys_active_sorted [activeKeyRow] 7).1
    ⟨1, "k", "mk_h1", 5, none, true⟩ (by decide)

/-- C4: on the chat-completion success path the final assistant-visible
message equals the explanation when the generated code is empty and otherwise
the explanation followed by a fenced clarity code block with the code; and
exactly two turns are appended to the conversation in order: a user turn with
the original query, then an assistant turn with the composed message. -/
theorem chatCompletions_compose_and_append (convo : Conversation) (query : String)
    (resp : Codegen.CodeGenerationResponse) :
    (resp.code = "" → Handlers.composeAssistantMessage resp = resp.explanation)
    ∧ (resp.code ≠ "" → Handlers.composeAssistantMessage resp
        = resp.explanation ++ "\n\n" ++ "```clarity\n" ++ resp.code ++ "\n```")
    ∧ (Handlers.chatCompletionsSuccessTurns convo query resp).history
        = convo.history
            ++ [⟨"user", query⟩,
                ⟨"assistant", Handlers.composeAssistantMessage resp⟩] := by
  refine ⟨?_, ?_, ?_⟩
  · intro h
    simp [Handlers.composeAssistantMessage, h]
  · intro h
    simp [Handlers.composeAssistantMessage, h]
  · simp [Handlers.chatCompletionsSuccessTurns, Conversation.AddTurn]

/-- Witness for C4: with empty generated code the composed message is the
bare explanation. -/
theorem chatCompletions_compose_and_append_witness :
    Handlers.composeAssistantMessage ⟨"", "expl", 0, 0⟩ = "expl" :=
  (chatCompletions_compose_and_append {} ("q") ⟨"", "expl", 0, 0⟩).1 rfl

/-- C7: every entry the query-log middleware hands to LogAsync has a non-zero
resolved user id (entries without one are skipped before enqueue) and a
stored response of at most 10000 bytes: bodies of at most 10000 bytes are
stored whole and longer bodies are truncated to exactly their first 10000
bytes. -/
theorem queryLogMiddleware_guard (tracked : List String) (c : Middleware.MWRequest)
    (entry : Querylog.QueryLog)
    (h : Middleware.QueryLogMiddleware tracked c = some entry) :
    entry.userID ≠ 0
    ∧ entry.response.length ≤ 10000
    ∧ ((c.responseBody.length : Int) ≤ 10000 → entry.response = c.responseBody)
    ∧ (10000 < (c.responseBody.length : Int) →
        entry.response = c.responseBody.take 10000) := by
  unfold Middleware.QueryLogMiddleware at h
  split at h
  · exact absurd h (by simp)
  · split at h
    · exact absurd h (by simp)
    · rename_i huser
      obtain rfl := (Option.some.injEq _ _).mp h
      refine ⟨huser, ?_, ?_, ?_⟩
      · show (Middleware.truncateResponse c.responseBody 10000).length ≤ 10000
        unfold Middleware.truncateResponse
        rw [if_neg (by norm_num)]
        by_cases hlen : (c.responseBody.length : Int) ≤ 10000
        · rw [if_pos hlen]
          omega
        · rw [if_neg hlen]
          rw [List.length_take]
          omega
      · intro hlen
        show Middleware.truncateResponse c.responseBody 10000 = c.responseBody
        unfold Middleware.truncateResponse
        rw [if_neg (by norm_num), if_pos hlen]
      · intro hlen
        show Middleware.truncateResponse c.responseBody 10000 = c.responseBody.take 10000
        unfold Middleware.truncateResponse
        rw [if_neg (by norm_num), if_neg (by omega)]
        rfl

/-- Witness for C7 at a tracked request with user id 7 and a 2-byte body. -/
theorem queryLogMiddleware_guard_witness :
    sampleMWEntry.userID ≠ 0
    ∧ sampleMWEntry.response.length ≤ 10000
    ∧ ((sampleMWRequest.responseBody.length : Int) ≤ 10000 →
        sampleMWEntry.response = sampleMWRequest.responseBody)
    ∧ (10000 < (sampleMWRequest.responseBody.length : Int) →
        sampleMWEntry.response = sampleMWRequest.responseBody.take 10000) :=
  queryLogMiddleware_guard ["/v1/chat/completions"] sampleMWRequest sampleMWEntry
    (by rfl)

/-- hexVal inverts hexDigitChar on digit values. -/
theorem hexVal_hexDigitChar (n : Nat) (h : n < 16) :
    hexVal (hexDigitChar n) = some n := by
  interval_cases n <;> rfl

/-- Parsing the escape of one character prepends that character. -/
theorem parseJSONStringBody_escape (c : Char) (k : List Char) :
    parseJSONStringBody (escapeJSONChar c ++ k)
      = (parseJSONStringBody k).map (fun p => (c :: p.1, p.2)) := by
  unfold escapeJSONChar
  split_ifs with h1 h2 h3 h4 h5 h6 h7
  · subst h1
    rw [List.cons_append, List.cons_append, List.nil_append, parseJSONStringBody.eq_def]
    simp +decide [unescapeSimple]
  · subst h2
    rw [List.cons_append, List.cons_append, List.nil_append, parseJSONStringBody.eq_def]
    simp +decide [unescapeSimple]
  · subst h3
    rw [List.cons_append, List.cons_append, List.nil_append, parseJSONStringBody.eq_def]
    simp +decide [unescapeSimple]
  · subst h4
    rw [List.cons_append, List.cons_append, List.nil_append, parseJSONStringBody.eq_def]
    simp +decide [unescapeSimple]
  · subst h5
    rw [List.cons_append, List.cons_append, List.nil_append, parseJSONStringBody.eq_def]
    simp +decide [unescapeSimple]
  · have hlt : c.toNat < 256 := by
      rcases h6 with h | h | h | h
      · omega
      all_goals subst h; decide
    have hd1 := hexVal_hexDigitChar (c.toNat / 16) (by omega)
    have hd2 := hexVal_hexDigitChar (c.toNat % 16) (by omega)
    have h0v : hexVal '0' = some 0 := rfl
    simp only [List.cons_append, List.nil_append]
    rw [parseJSONStringBody.eq_def]
    simp only [hd1, hd2, h0v]
    norm_num
    have harith : c.toNat / 16 * 16 + c.toNat % 16 = c.toNat := by omega
    simp [harith, Char.ofNat_toNat]
  · have hd2 := hexVal_hexDigitChar (c.toNat % 16) (by omega)
    have h0v : hexVal '0' = some 0 := rfl
    have h2v : hexVal '2' = some 2 := rfl
    simp only [List.cons_append, List.nil_append]
    rw [parseJSONStringBody.eq_def]
    simp only [hd2, h0v, h2v]
    norm_num
    have harith : 8224 + c.toNat % 16 = c.toNat := by
      rcases h7 with h | h <;> omega
    simp [harith, Char.ofNat_toNat]
  · push_neg at h6
    simp only [List.cons_append, List.nil_append]
    rw [parseJSONStringBody.eq_def]
    simp only []
    rw [if_neg h1, if_neg h2, if_neg (by omega : ¬ c.toNat < 32)]

/-- Parsing the escape of a whole body, followed by the closing quote. -/
theorem parseJSONStringBody_escapeList (s : List Char) (k : List Char) :
    parseJSONStringBody (escapeJSONList s ++ '"' :: k) = some (s, k) := by
  induction s with
  | nil =>
    rw [show escapeJSONList [] = [] from rfl, List.nil_append,
      parseJSONStringBody.eq_def]
    simp
  | cons c cs ih =>
    have harr : escapeJSONList (c :: cs) ++ '"' :: k
        = escapeJSONChar c ++ (escapeJSONList cs ++ '"' :: k) := by
      rw [show escapeJSONList (c :: cs) = escapeJSONChar c ++ escapeJSONList cs from rfl,
        List.append_assoc]
    rw [harr, parseJSONStringBody_escape, ih]
    rfl

/-- expectChars consumes exactly its token. -/
theorem expectChars_append (p k : List Char) : expectChars p (p ++ k) = some k := by
  induction p with
  | nil => rfl
  | cons a ps ih => simp [expectChars, ih]

/-- Parsing the marshalled form of one Turn returns that Turn. -/
theorem parseTurnObject_serialize (t : Turn) (k : List Char) :
    parseTurnObject (serializeTurnChars t ++ k) = some (t, k) := by
  have harr : serializeTurnChars t ++ k
      = turnOpenChars ++ (escapeJSONList t.role.data ++ '"' ::
          (turnMidChars ++ (escapeJSONList t.content.data ++ '"' :: '\x7d' :: k))) := by
    simp [serializeTurnChars, List.append_assoc]
  rw [harr]
  simp only [parseTurnObject, expectChars_append, parseJSONStringBody_escapeList]
  simp

/-- The marshalled tail is at least as long as its number of turns. -/
theorem historyTailChars_length (ts : List Turn) :
    ts.length ≤ (historyTailChars ts).length := by
  induction ts with
  | nil => simp [historyTailChars]
  | cons t ts ih =>
    rw [show historyTailChars (t :: ts) = ',' :: serializeTurnChars t ++ historyTailChars ts
      from rfl]
    simp only [List.length_cons, List.length_append]
    omega

/-- Parsing the marshalled tail of a history with enough fuel returns the
remaining turns. -/
theorem parseTurnsTail_serialize (ts : List Turn) (k : List Char) (fuel : Nat)
    (hfuel : ts.length < fuel) :
    parseTurnsTail fuel (historyTailChars ts ++ ']' :: k) = some (ts, k) := by
  induction ts generalizing fuel k with
  | nil =>
    cases fuel with
    | zero => omega
    | succ f =>
      rw [show historyTailChars [] = [] from rfl, List.nil_append]
      simp [parseTurnsTail]
  | cons t ts ih =>
    cases fuel with
    | zero => omega
    | succ f =>
      have harr : historyTailChars (t :: ts) ++ ']' :: k
          = ',' :: (serializeTurnChars t ++ (historyTailChars ts ++ ']' :: k)) := by
        rw [show historyTailChars (t :: ts) = ',' :: serializeTurnChars t ++ historyTailChars ts
          from rfl]
        simp [List.append_assoc]
      rw [harr]
      simp only [parseTurnsTail, parseTurnObject_serialize]
      rw [ih _ _ (by simp only [List.length_cons] at hfuel; omega)]
      simp

/-- Parsing the whole marshalled history consumes it exactly. -/
theorem parseHistoryDoc_serialize (hist : List Turn) :
    parseHistoryDoc ('[' :: serializeHistoryChars hist ++ [']']) = some (hist, []) := by
  cases hist with
  | nil =>
    rw [show serializeHistoryChars [] = [] from rfl]
    rfl
  | cons t ts =>
    have hsplit : serializeHistoryChars (t :: ts) ++ [']']
        = serializeTurnChars t ++ (historyTailChars ts ++ ']' :: []) := by
      rw [show serializeHistoryChars (t :: ts) = serializeTurnChars t ++ historyTailChars ts
        from rfl]
      simp [List.append_assoc]
    obtain ⟨r0, hr0⟩ : ∃ r0, serializeTurnChars t = '\x7b' :: r0 := ⟨_, rfl⟩
    have hr : serializeTurnChars t ++ (historyTailChars ts ++ ']' :: [])
        = '\x7b' :: (r0 ++ (historyTailChars ts ++ ']' :: [])) := by
      rw [hr0, List.cons_append]
    rw [List.cons_append, hsplit, hr, parseHistoryDoc.eq_def]
    simp only []
    simp only [if_true]
    rw [if_neg (by decide : ¬ ('\x7b' : Char) = ']')]
    rw [← hr, parseTurnObject_serialize]
    simp only []
    rw [parseTurnsTail_serialize ts [] _
      (by have := historyTailChars_length ts; simp; omega)]

/-- A marshalled history is bracketed, hence untouched by TrimSpace. -/
theorem trimChars_bracketed (mid : List Char) :
    trimChars ('[' :: mid ++ [']']) = '[' :: mid ++ [']'] := by
  have h1 : List.dropWhile isSpaceChar ('[' :: (mid ++ [']'])) = '[' :: (mid ++ [']']) := by
    rw [List.dropWhile_cons]
    simp +decide [isSpaceChar]
  have h2 : ('[' :: (mid ++ [']'])).reverse = ']' :: (mid.reverse ++ ['[']) := by
    simp
  have h3 : List.dropWhile isSpaceChar (']' :: (mid.reverse ++ ['[']))
      = ']' :: (mid.reverse ++ ['[']) := by
    rw [List.dropWhile_cons]
    simp +decide [isSpaceChar]
  unfold trimChars
  rw [List.cons_append, h1, h2, h3, ← h2, List.reverse_reverse]

/-- C3: DeserializeHistory inverts SerializeHistory on every ordered turn
sequence including the empty one; an empty or all-whitespace serialized
history deserializes to the empty sequence and never an error; and malformed
data — a truncated document, or trailing bytes after the array — yields an
unmarshal error rather than a silently truncated history. -/
theorem historySerialization_roundTrip (hist : List Turn) (s : String) :
    DeserializeHistory (SerializeHistory hist) = .ok hist
    ∧ (trimChars s.data = [] → DeserializeHistory s = .ok [])
    ∧ DeserializeHistory ("[\x7b") = .error ("unmarshal history: invalid JSON")
    ∧ DeserializeHistory ("[]x") = .error ("unmarshal history: invalid JSON") := by
  refine ⟨?_, ?_, by rfl, by rfl⟩
  · unfold DeserializeHistory SerializeHistory
    rw [show (String.mk ('[' :: serializeHistoryChars hist ++ [']'])).data
        = '[' :: serializeHistoryChars hist ++ [']'] from rfl]
    rw [trimChars_bracketed]
    have hnull : ¬ ('[' :: serializeHistoryChars hist ++ [']'] = ['n', 'u', 'l', 'l']) := by
      intro hx
      have h := congrArg List.head? hx
      simp +decide at h
    rw [if_neg (by simp), if_neg hnull, parseHistoryDoc_serialize]
  · intro htrim
    unfold DeserializeHistory
    rw [if_pos htrim]


/-- Witness for C3: a one-turn history round-trips, and the all-whitespace
input deserializes to the empty history. -/
theorem historySerialization_roundTrip_witness :
    DeserializeHistory (SerializeHistory [⟨"user", "hi"⟩]) = .ok [⟨"user", "hi"⟩]
    ∧ DeserializeHistory ("  ") = .ok [] :=
  ⟨(historySerialization_roundTrip [⟨"user", "hi"⟩] ("  ")).1,
    (historySerialization_roundTrip [⟨"user", "hi"⟩] ("  ")).2.1 (by rfl)⟩
